import Mathlib

/-!
Shallow embedding of the Glimmerwood Dash simulation engine
(src/src/App.tsx): the fixed-timestep loop, player physics, procedural
spawning, collision resolution, scoring and the game state machine.
JS numbers are modelled as rationals; the integer-valued counters
(score, hearts, jumpsRemaining) as integers.  Every `Math.random()`
draw of one simulation step is passed in explicitly through a `Rand`
record, so the step function is a pure function of its inputs.
-/

namespace Glimmerwood

/-- Game phase tag (App.tsx line 13). -/
inductive GameState where
  | TITLE
  | PLAYING
  | PAUSED
  | GAMEOVER
deriving DecidableEq, Repr

/-- Obstacle kind (App.tsx line 14). -/
inductive ObstacleType where
  | SMALL
  | LARGE
deriving DecidableEq, Repr

/-- Player record (App.tsx lines 21-30). -/
structure Player where
  x : ℚ
  y : ℚ
  w : ℚ
  h : ℚ
  vy : ℚ
  onGround : Bool
  jumpsRemaining : ℤ
  hitCooldown : ℚ
deriving DecidableEq, Repr

/-- Obstacle record (App.tsx lines 31-40); the optional `remove` flag is
a `Bool` that is `false` while the JS field is absent. -/
structure Obstacle where
  type : ObstacleType
  x : ℚ
  y : ℚ
  w : ℚ
  h : ℚ
  hit : Bool
  scored : Bool
  remove : Bool
deriving DecidableEq, Repr

/-- Heart pickup record (App.tsx lines 41-47). -/
structure HeartPickup where
  x : ℚ
  y : ℚ
  w : ℚ
  h : ℚ
  taken : Bool
deriving DecidableEq, Repr

/-- Decorative firefly (App.tsx lines 184-186); kept in a ref separate
from the game snapshot in the source, hence modelled outside `Game`. -/
structure Firefly where
  x : ℚ
  y : ℚ
  r : ℚ
  phase : ℚ
  speed : ℚ
deriving DecidableEq, Repr

/-- The simulation snapshot held in `gameRef` (App.tsx lines 188-217),
without the UI callback fields (those never mutate the snapshot). -/
structure Game where
  state : GameState
  t : ℚ
  bgOffset : ℚ
  speed : ℚ
  difficultySeconds : ℚ
  u : ℚ
  G : ℚ
  JUMP_V : ℚ
  HIT_BUFFER : ℚ
  groundY : ℚ
  player : Player
  obstacles : List Obstacle
  heartPickups : List HeartPickup
  obsTimer : ℚ
  obsInterval : ℚ
  lastObstacleX : ℚ
  minGapPx : ℚ
  heartTimer : ℚ
  heartInterval : ℚ
  score : ℤ
  hearts : ℤ
deriving DecidableEq, Repr

/-- External viewport metrics and the optional backdrop image width
read by `update` (sizeRef / imagesRef in the source). -/
structure Env where
  w : ℚ
  h : ℚ
  backdropW : Option ℚ
deriving DecidableEq, Repr

/-- One simulation step consumes up to six `Math.random()` draws;
they are supplied up front, in source order of use. -/
structure Rand where
  obsJitter : ℚ
  obsType : ℚ
  heartGate : ℚ
  heartIvJit : ℚ
  heartXJit : ℚ
  heartYJit : ℚ
deriving DecidableEq, Repr

/-- Reference design height (App.tsx line 69). -/
def DESIGN_HEIGHT : ℚ := 540

/-- The shared numeric clamp helper (App.tsx line 70). -/
def clamp (v a b : ℚ) : ℚ := max a (min b v)

/-- The same clamp specialised to the integer-valued hearts counter
(the source applies line 70's clamp to an integer-valued number). -/
def iclamp (v a b : ℤ) : ℤ := max a (min b v)

/-- JS `%` on nonnegative finite operands: remainder with truncated
quotient.  Only used for the background scroll offset (line 609-611). -/
def jsMod (a b : ℚ) : ℚ :=
  if b = 0 then 0
  else a - b * ((if 0 ≤ a / b then (⌊a / b⌋ : ℤ) else (⌈a / b⌉ : ℤ)) : ℚ)

/-- The backdrop width used by the background offset wrap
(App.tsx line 611): the image width when loaded, else 10000. -/
def bgW (env : Env) : ℚ :=
  match env.backdropW with
  | some w => w
  | none => 10000

/-- Axis-aligned box used by the collision tests. -/
structure Rect where
  x : ℚ
  y : ℚ
  w : ℚ
  h : ℚ
deriving DecidableEq, Repr

/-- Hitbox shrink: inset 10% of width/height, centred
(App.tsx lines 708-712). -/
def shrink (x y w h : ℚ) : Rect :=
  let sx := w * 0.1
  let sy := h * 0.1
  { x := x + sx * 0.5, y := y + sy * 0.5, w := w - sx, h := h - sy }

/-- Strict axis-aligned overlap test (App.tsx lines 717-721, 745-749). -/
def rectOverlap (a b : Rect) : Prop :=
  a.x < b.x + b.w ∧ a.x + a.w > b.x ∧ a.y < b.y + b.h ∧ a.y + a.h > b.y

instance (a b : Rect) : Decidable (rectOverlap a b) := by
  unfold rectOverlap; infer_instance

/-- Start / restart transition (App.tsx lines 470-513, the gameRef
mutations only; `u`, `G`, `JUMP_V`, `HIT_BUFFER`, `groundY` are not
reassigned there). -/
def startGame (env : Env) (g : Game) : Game :=
  let u := env.h / DESIGN_HEIGHT
  let pW := 48 * u
  let pH := 64 * u
  { g with
    state := .PLAYING
    t := 0
    bgOffset := 0
    speed := 350
    difficultySeconds := 0
    obstacles := []
    heartPickups := []
    obsTimer := 0
    obsInterval := 2.1
    lastObstacleX := env.w
    minGapPx := 280 * u
    heartTimer := 2.2
    heartInterval := 5.5
    player :=
      { x := min 140 (env.w * 0.22)
        y := g.groundY - pH
        w := pW
        h := pH
        vy := 0
        onGround := true
        jumpsRemaining := 2
        hitCooldown := 0 }
    score := 0
    hearts := 3 }

/-- Jump action (App.tsx lines 560-570). -/
def doJump (g : Game) : Game :=
  if g.state ≠ .PLAYING then g
  else if g.player.jumpsRemaining > 0 then
    { g with player :=
        { g.player with
          vy := g.JUMP_V
          onGround := false
          jumpsRemaining := g.player.jumpsRemaining - 1 } }
  else g

/-- Player physics for one step: gravity integration, ground clamp with
double-jump replenishment, and the hit-cooldown decay
(App.tsx lines 624-639). -/
def stepPlayer (G groundY dt : ℚ) (p : Player) : Player :=
  let p := { p with vy := p.vy + G * dt }
  let p := { p with y := p.y + p.vy * dt }
  let groundTop := groundY - p.h
  let p :=
    if groundTop ≤ p.y then
      let p := { p with y := groundTop, vy := 0 }
      if p.onGround = false then
        { p with onGround := true, jumpsRemaining := 2 }
      else p
    else { p with onGround := false }
  { p with hitCooldown := max 0 (p.hitCooldown - dt) }

/-- Difficulty ramp (App.tsx lines 620-622). -/
def rampDifficulty (dt : ℚ) (g : Game) : Game :=
  let g := { g with difficultySeconds := g.difficultySeconds + dt }
  { g with speed := 350 + g.difficultySeconds * 4 }

/-- The physics stage of the Playing step (App.tsx lines 624-639). -/
def physicsStage (dt : ℚ) (g : Game) : Game :=
  { g with player := stepPlayer g.G g.groundY dt g.player }

/-- Obstacle spawning with the spacing guard
(App.tsx lines 641-675). -/
def spawnObstacle (env : Env) (rnd : Rand) (dt : ℚ) (g : Game) : Game :=
  let g := { g with obsTimer := g.obsTimer + dt }
  let minInterval : ℚ := 1.1
  let ramped := 2.1 - g.difficultySeconds * 0.01
  let targetObsInterval := clamp ramped minInterval 2.4
  if g.obsTimer ≥ g.obsInterval then
    if g.lastObstacleX < env.w - g.minGapPx then
      let type : ObstacleType := if rnd.obsType < 0.7 then .SMALL else .LARGE
      let u := g.u
      let mushH := if type = .SMALL then 52 * u else 150 * u
      let mushW := (if type = .SMALL then (52 : ℚ) else 92) * u
      let x := env.w + 40 * u
      let y := g.groundY - mushH
      { g with
        obsTimer := 0
        obsInterval := targetObsInterval + (rnd.obsJitter * 0.6 - 0.3)
        obstacles := g.obstacles ++
          [{ type := type, x := x, y := y, w := mushW, h := mushH,
             hit := false, scored := false, remove := false }]
        lastObstacleX := x }
    else
      { g with obsTimer := g.obsInterval * 0.7 }
  else
    { g with lastObstacleX := g.lastObstacleX - g.speed * dt }

/-- The heart candidate-shift retry loop (App.tsx lines 687-697):
while a trial remains and the candidate x would sit in an obstacle's
widened lane zone, shift right by a fixed step.  The source's
`trials++ < 12` allows at most 12 shifts. -/
def heartShift (obstacles : List Obstacle) (hw u : ℚ) : ℚ → ℕ → ℚ
  | x, 0 => x
  | x, fuel + 1 =>
    if obstacles.any (fun o => decide (|o.x + o.w / 2 - x| < o.w / 2 + hw + 130 * u)) then
      heartShift obstacles hw u (x + 220 * u) fuel
    else x

/-- Heart pickup spawning (App.tsx lines 677-700). -/
def spawnHeart (env : Env) (rnd : Rand) (dt : ℚ) (g : Game) : Game :=
  let g := { g with heartTimer := g.heartTimer + dt }
  if g.hearts < 6 ∧ g.heartTimer ≥ g.heartInterval ∧ rnd.heartGate < 0.6 then
    let g := { g with heartTimer := 0, heartInterval := 5 + rnd.heartIvJit * 3.5 }
    let u := g.u
    let hw := 30 * u
    let hh := 28 * u
    let x0 := env.w + 240 * u + rnd.heartXJit * (420 * u)
    let y := g.groundY - (80 + rnd.heartYJit * 70) * u
    let x := heartShift g.obstacles hw u x0 12
    if x < env.w + 1000 * u then
      { g with heartPickups := g.heartPickups ++
          [{ x := x, y := y, w := hw, h := hh, taken := false }] }
    else g
  else g

/-- World scroll translation of entities (App.tsx lines 702-705). -/
def moveWorld (dt : ℚ) (g : Game) : Game :=
  let vx := g.speed * dt
  { g with
    obstacles := g.obstacles.map (fun o => { o with x := o.x - vx })
    heartPickups := g.heartPickups.map (fun hr => { hr with x := hr.x - vx }) }

/-- The mutable scalars threaded through the collision loops. -/
structure LoopSt where
  hitCooldown : ℚ
  hearts : ℤ
  score : ℤ
  state : GameState
deriving DecidableEq, Repr

/-- One iteration of the obstacle collision/scoring loop
(App.tsx lines 715-740).  The returned `Bool` is the early return taken
when hearts reach 0.  After a registered hit the source's scoring check
is skipped because `o.hit` has just been set, so the hit branch returns
directly. -/
def obsStep (pr : Rect) (px HB : ℚ) (st : LoopSt) (o : Obstacle) :
    Obstacle × LoopSt × Bool :=
  if rectOverlap pr (shrink o.x o.y o.w o.h) ∧ st.hitCooldown ≤ 0 ∧ o.hit = false then
    let o1 := { o with hit := true, remove := true }
    let st1 := { st with hearts := iclamp (st.hearts - 1) 0 6, hitCooldown := HB }
    if st1.hearts ≤ 0 then (o1, { st1 with state := .GAMEOVER }, true)
    else (o1, st1, false)
  else if o.scored = false ∧ o.hit = false ∧ px > o.x + o.w then
    ({ o with scored := true }, { st with score := st.score + 1 }, false)
  else (o, st, false)

/-- The obstacle collision/scoring loop (App.tsx lines 715-740).
On the early return the remaining obstacles are left untouched, exactly
as the source's in-place loop leaves the rest of the array. -/
def obsLoop (pr : Rect) (px HB : ℚ) : LoopSt → List Obstacle →
    List Obstacle × LoopSt × Bool
  | st, [] => ([], st, false)
  | st, o :: rest =>
    let r := obsStep pr px HB st o
    if r.2.2 = true then (r.1 :: rest, r.2.1, true)
    else
      let rr := obsLoop pr px HB r.2.1 rest
      (r.1 :: rr.1, rr.2.1, rr.2.2)

/-- The heart pickup loop (App.tsx lines 742-758): an overlapping
untaken pickup is always marked taken; hearts are incremented only
below the cap of 6. -/
def pickupLoop (pr : Rect) : ℤ → List HeartPickup → List HeartPickup × ℤ
  | hearts, [] => ([], hearts)
  | hearts, hr :: rest =>
    if hr.taken = true then
      let rr := pickupLoop pr hearts rest
      (hr :: rr.1, rr.2)
    else if rectOverlap pr (shrink hr.x hr.y hr.w hr.h) then
      let rr := pickupLoop pr (if hearts < 6 then hearts + 1 else hearts) rest
      ({ hr with taken := true } :: rr.1, rr.2)
    else
      let rr := pickupLoop pr hearts rest
      (hr :: rr.1, rr.2)

/-- Collision resolution and cleanup (App.tsx lines 707-766).  On the
obstacle loop's early return (game over) the pickup loop and the
cleanup filters do not run. -/
def resolveCollisions (g : Game) : Game :=
  let p := g.player
  let pr := shrink p.x p.y p.w p.h
  let r := obsLoop pr p.x g.HIT_BUFFER
    { hitCooldown := p.hitCooldown, hearts := g.hearts, score := g.score, state := g.state }
    g.obstacles
  if r.2.2 = true then
    { g with
      obstacles := r.1
      player := { p with hitCooldown := r.2.1.hitCooldown }
      hearts := r.2.1.hearts
      score := r.2.1.score
      state := r.2.1.state }
  else
    let pk := pickupLoop pr r.2.1.hearts g.heartPickups
    { g with
      obstacles := r.1.filter (fun o => !o.remove && decide (o.x + o.w > -40))
      heartPickups := pk.1.filter (fun hr => !hr.taken && decide (hr.x + hr.w > -40))
      player := { p with hitCooldown := r.2.1.hitCooldown }
      hearts := pk.2
      score := r.2.1.score
      state := r.2.1.state }

/-- The stages of the Playing step that precede collision resolution,
in source order (App.tsx lines 620-705). -/
def preCollide (env : Env) (rnd : Rand) (dt : ℚ) (g : Game) : Game :=
  moveWorld dt
    (spawnHeart env rnd dt
      (spawnObstacle env rnd dt
        (physicsStage dt
          (rampDifficulty dt g))))

/-- The Playing portion of one fixed step, in source order
(App.tsx lines 620-766). -/
def updatePlaying (env : Env) (rnd : Rand) (dt : ℚ) (g : Game) : Game :=
  resolveCollisions (preCollide env rnd dt g)

/-- The background offset advance while Playing (App.tsx lines 607-611). -/
def bgAdvance (env : Env) (dt : ℚ) (g : Game) : ℚ :=
  jsMod (g.bgOffset + max 120 (g.speed * 0.35) * dt) (bgW env)

/-- One fixed simulation step on the game snapshot
(App.tsx lines 597-767; the firefly ref updates live in
`updateFireflies`). -/
def update (env : Env) (rnd : Rand) (dt : ℚ) (g : Game) : Game :=
  let g := if g.state ≠ .PAUSED then { g with t := g.t + dt } else g
  let g := if g.state = .PLAYING then { g with bgOffset := bgAdvance env dt g } else g
  if g.state ≠ .PLAYING then g else updatePlaying env rnd dt g

/-- The firefly ref updates of one step (App.tsx lines 602-615):
phase advances in every state; position moves only while Playing. -/
def updateFireflies (env : Env) (dt : ℚ) (g : Game) (flies : List Firefly) :
    List Firefly :=
  let flies := flies.map (fun f => { f with phase := f.phase + f.speed * 2.2 * dt })
  if g.state = .PLAYING then
    let bgBaseSpeed := max 120 (g.speed * 0.35)
    flies.map (fun f =>
      let x := f.x - bgBaseSpeed * dt
      if x < -10 then { f with x := env.w + 10 } else { f with x := x })
  else flies

/-- The accumulator drain of the frame callback (App.tsx lines 587-591):
while a full fixed step fits in the accumulator, run `update` with a
constant dt of 1/60 and subtract one step.  The index `i` selects the
random draws of each step. -/
def drain (env : Env) (rs : ℕ → Rand) (i : ℕ) (g : Game) (accum : ℚ) :
    Game × ℚ :=
  if h : (1 : ℚ) / 60 ≤ accum then
    drain env rs (i + 1) (update env (rs i) (1 / 60) g) (accum - 1 / 60)
  else (g, accum)
termination_by ⌊accum * 60⌋₊
decreasing_by
  have h1 : (1 : ℚ) ≤ accum * 60 := by linarith
  have h2 : (accum - 1 / 60) * 60 = accum * 60 - 1 := by ring
  have h3 : 1 ≤ ⌊accum * 60⌋₊ := Nat.le_floor (by exact_mod_cast h1)
  calc ⌊(accum - 1 / 60) * 60⌋₊ = ⌊accum * 60 - 1⌋₊ := by rw [h2]
    _ = ⌊accum * 60⌋₊ - 1 := Nat.floor_sub_one _
    _ < ⌊accum * 60⌋₊ := Nat.sub_lt (lt_of_lt_of_le Nat.zero_lt_one h3) Nat.one_pos

/-- One animation-frame callback (App.tsx lines 573-595): clamp the
elapsed real time to 50 ms, accumulate, drain in fixed steps, then draw
once.  The trailing `1` counts the single `draw()` call of the frame. -/
def tick (env : Env) (rs : ℕ → Rand) (i : ℕ) (prev nowT accum : ℚ) (g : Game) :
    Game × ℚ × ℕ :=
  let dt := min (nowT - prev) 0.05
  let accum := accum + dt
  let r := drain env rs i g accum
  (r.1, r.2, 1)

/-- `n` successive fixed steps starting at random index `i`, each with
dt = 1/60: the normal form the drain loop is proved equal to. -/
def updatesFrom (env : Env) (rs : ℕ → Rand) : ℕ → ℕ → Game → Game
  | _, 0, g => g
  | i, n + 1, g => updatesFrom env rs (i + 1) n (update env (rs i) (1 / 60) g)

/-- Per-obstacle invariant backing the hit/scored exclusivity claim:
nonnegative width, the two flags never both set, and a scored obstacle
lies wholly left of the player's left edge `px`. -/
def ObInv (px : ℚ) (o : Obstacle) : Prop :=
  0 ≤ o.w ∧ ¬(o.hit = true ∧ o.scored = true) ∧ (o.scored = true → o.x + o.w < px)

/-- The inductive game invariant for the hit/scored exclusivity claim. -/
def GameInv (g : Game) : Prop :=
  0 ≤ g.difficultySeconds ∧ 0 ≤ g.u ∧ 0 ≤ g.player.w ∧
    ∀ o ∈ g.obstacles, ObInv g.player.x o

/-! Concrete inputs used by the witness and counterexample theorems.
The viewport is 960 x 540, so the resolution unit is u = 1 and all the
derived constants take their design values. -/

/-- A 960 x 540 viewport with a 1024 px wide backdrop image. -/
def envD : Env := { w := 960, h := 540, backdropW := some 1024 }

/-- Fixed random draws: mid-range everywhere, with a heart-gate roll
that fails the 0.6 chance test (so no heart spawns). -/
def rndD : Rand :=
  { obsJitter := 1/2, obsType := 1/2, heartGate := 99/100,
    heartIvJit := 1/2, heartXJit := 1/2, heartYJit := 1/2 }

/-- The grounded player at session start for a 960 x 540 viewport. -/
def baseP : Player :=
  { x := 100, y := 412, w := 48, h := 64, vy := 0,
    onGround := true, jumpsRemaining := 2, hitCooldown := 0 }

/-- A freshly started Playing snapshot for a 960 x 540 viewport. -/
def baseG : Game :=
  { state := .PLAYING, t := 0, bgOffset := 0, speed := 350,
    difficultySeconds := 0, u := 1, G := 2600, JUMP_V := -900,
    HIT_BUFFER := 6/10, groundY := 476,
    player := baseP, obstacles := [], heartPickups := [],
    obsTimer := 0, obsInterval := 21/10, lastObstacleX := 960,
    minGapPx := 280, heartTimer := 0, heartInterval := 11/2,
    score := 0, hearts := 3 }

/-- The Title-screen variant of the base snapshot. -/
def gTitle : Game := { baseG with state := .TITLE }

/-- A small mushroom placed so that it overlaps the grounded player
after the world-scroll of one step. -/
def obHit : Obstacle :=
  { type := .SMALL, x := 106, y := 424, w := 52, h := 52,
    hit := false, scored := false, remove := false }

/-- One heart left and an overlapping obstacle: the fatal-hit input. -/
def gFatal : Game := { baseG with hearts := 1, obstacles := [obHit] }

/-- An untaken heart pickup overlapping the grounded player. -/
def hpCap : HeartPickup := { x := 100, y := 420, w := 30, h := 28, taken := false }

/-- Hearts at the cap of 6 with an overlapping untaken pickup. -/
def gCap : Game := { baseG with hearts := 6, heartPickups := [hpCap] }

/-- A small mushroom whose trailing edge lies between the player's left
and right edges after the world-scroll of one step. -/
def obPass : Obstacle :=
  { type := .SMALL, x := 86, y := 424, w := 52, h := 52,
    hit := false, scored := false, remove := false }

/-- An airborne player above `obPass`: the right edge has passed the
obstacle's trailing edge but the left edge has not. -/
def gPass : Game :=
  { baseG with
    obstacles := [obPass]
    player := { baseP with y := 200, vy := 0, onGround := false, jumpsRemaining := 1 } }

/-- Paused with a live hit-cooldown of 1/2 s. -/
def gPausedCd : Game :=
  { baseG with state := .PAUSED, player := { baseP with hitCooldown := 1/2 } }

/-- Paused variant of the base snapshot for the frozen-clock witness. -/
def gPaused : Game := { baseG with state := .PAUSED }

/-- Spawn timer expired while the previous obstacle is still within the
spacing gap of the right edge: the guard-fail input. -/
def gGuard : Game := { baseG with obsTimer := 21/10, lastObstacleX := 950 }

/-- Two overlapping obstacles on the same step: only the first may
register a hit. -/
def gTwo : Game := { baseG with obstacles := [obHit, { obHit with x := 108 }] }

/-- Airborne player one step above the ground line, about to land. -/
def gLand : Game :=
  { baseG with player :=
      { baseP with y := 411, vy := 60, onGround := false, jumpsRemaining := 0 } }

/-- The shrunk hitbox of the grounded demo player. -/
def prW : Rect := shrink 100 412 48 64

/-- Demo loop scalars: no cooldown, 3 hearts, score 0, Playing. -/
def stW : LoopSt := { hitCooldown := 0, hearts := 3, score := 0, state := .PLAYING }

/-- An obstacle fully left of the demo player's left edge. -/
def obDone : Obstacle :=
  { type := .SMALL, x := 40, y := 424, w := 52, h := 52,
    hit := false, scored := false, remove := false }

/-- A constant random stream for the clock witnesses. -/
def rsD : ℕ → Rand := fun _ => rndD

instance (px : ℚ) (o : Obstacle) : Decidable (ObInv px o) := by
  unfold ObInv; infer_instance

instance (g : Game) : Decidable (GameInv g) := by
  unfold GameInv; infer_instance

/-! Batteries marks the `Rat` arithmetic primitives irreducible, which
blocks elaborator-side evaluation of the engine on concrete inputs; the
witnesses below restore default reducibility locally so `decide` can
run the model. -/

attribute [local semireducible] Rat.mul Rat.inv Rat.add Rat.sub Rat.ofScientific

/-! Helper lemmas. -/

theorem iclamp_nonneg (v : ℤ) : 0 ≤ iclamp v 0 6 := le_max_left 0 _

theorem iclamp_le_six (v : ℤ) : iclamp v 0 6 ≤ 6 :=
  max_le (by norm_num) (min_le_left 6 v)

theorem iclamp_lower (v : ℤ) (h : v ≤ 6) : v ≤ iclamp v 0 6 :=
  le_trans (le_min h le_rfl) (le_max_right 0 (min 6 v))

theorem update_not_playing (env : Env) (rnd : Rand) (dt : ℚ) (g : Game)
    (h : g.state ≠ .PLAYING) :
    update env rnd dt g = if g.state = .PAUSED then g else { g with t := g.t + dt } := by
  unfold update
  by_cases hp : g.state = .PAUSED
  · simp [hp]
  · simp [hp, h]

theorem update_playing (env : Env) (rnd : Rand) (dt : ℚ) (g : Game)
    (h : g.state = .PLAYING) :
    update env rnd dt g =
      updatePlaying env rnd dt { g with t := g.t + dt, bgOffset := bgAdvance env dt g } := by
  unfold update
  simp [h]
  rfl

theorem stepPlayer_geom (G groundY dt : ℚ) (p : Player) :
    (stepPlayer G groundY dt p).x = p.x ∧ (stepPlayer G groundY dt p).w = p.w ∧
      (stepPlayer G groundY dt p).h = p.h := by
  unfold stepPlayer
  dsimp only
  split_ifs <;> exact ⟨rfl, rfl, rfl⟩

theorem stepPlayer_cooldown (G groundY dt : ℚ) (p : Player) :
    (stepPlayer G groundY dt p).hitCooldown = max 0 (p.hitCooldown - dt) := by
  unfold stepPlayer
  dsimp only
  split_ifs <;> rfl

theorem stepPlayer_jumps (G groundY dt : ℚ) (p : Player) :
    (stepPlayer G groundY dt p).jumpsRemaining = p.jumpsRemaining ∨
      ((stepPlayer G groundY dt p).jumpsRemaining = 2 ∧ p.onGround = false ∧
        (stepPlayer G groundY dt p).onGround = true) := by
  unfold stepPlayer
  dsimp only
  split_ifs with h1 h2
  · exact Or.inr ⟨rfl, h2, rfl⟩
  · exact Or.inl rfl
  · exact Or.inl rfl

theorem spawnObstacle_spec (env : Env) (rnd : Rand) (dt : ℚ) (g : Game) :
    (spawnObstacle env rnd dt g).hearts = g.hearts ∧
    (spawnObstacle env rnd dt g).score = g.score ∧
    (spawnObstacle env rnd dt g).state = g.state ∧
    (spawnObstacle env rnd dt g).player = g.player ∧
    (spawnObstacle env rnd dt g).heartPickups = g.heartPickups ∧
    (spawnObstacle env rnd dt g).u = g.u ∧
    (spawnObstacle env rnd dt g).HIT_BUFFER = g.HIT_BUFFER ∧
    (spawnObstacle env rnd dt g).speed = g.speed ∧
    ((spawnObstacle env rnd dt g).obstacles = g.obstacles ∨
      ∃ ob, (spawnObstacle env rnd dt g).obstacles = g.obstacles ++ [ob] ∧
        ob.hit = false ∧ ob.scored = false ∧ (0 ≤ g.u → 0 ≤ ob.w)) := by
  unfold spawnObstacle
  dsimp only
  by_cases h1 : g.obsTimer + dt ≥ g.obsInterval
  · rw [if_pos h1]
    by_cases h2 : g.lastObstacleX < env.w - g.minGapPx
    · rw [if_pos h2]
      refine ⟨rfl, rfl, rfl, rfl, rfl, rfl, rfl, rfl, Or.inr ⟨_, rfl, rfl, rfl, ?_⟩⟩
      intro hu
      by_cases h3 : rnd.obsType < (0.7 : ℚ)
      · simp only [if_pos h3]
        simpa using mul_nonneg (show (0:ℚ) ≤ 52 by norm_num) hu
      · simp only [if_neg h3]
        simpa using mul_nonneg (show (0:ℚ) ≤ 92 by norm_num) hu
    · rw [if_neg h2]
      exact ⟨rfl, rfl, rfl, rfl, rfl, rfl, rfl, rfl, Or.inl rfl⟩
  · rw [if_neg h1]
    exact ⟨rfl, rfl, rfl, rfl, rfl, rfl, rfl, rfl, Or.inl rfl⟩

theorem obsStep_cases (pr : Rect) (px HB : ℚ) (st : LoopSt) (o : Obstacle) :
    obsStep pr px HB st o = (o, st, false) ∨
    (obsStep pr px HB st o =
        ({ o with scored := true }, { st with score := st.score + 1 }, false) ∧
      o.hit = false ∧ o.scored = false ∧ px > o.x + o.w) ∨
    ((obsStep pr px HB st o =
        ({ o with hit := true, remove := true },
          { st with hearts := iclamp (st.hearts - 1) 0 6, hitCooldown := HB }, false) ∧
        ¬ iclamp (st.hearts - 1) 0 6 ≤ 0 ∨
      obsStep pr px HB st o =
        ({ o with hit := true, remove := true },
          { st with hearts := iclamp (st.hearts - 1) 0 6, hitCooldown := HB, state := .GAMEOVER },
          true) ∧
        iclamp (st.hearts - 1) 0 6 ≤ 0) ∧
      rectOverlap pr (shrink o.x o.y o.w o.h) ∧ st.hitCooldown ≤ 0 ∧ o.hit = false) := by
  unfold obsStep
  dsimp only
  split_ifs with h1 h2 h3
  · exact Or.inr (Or.inr ⟨Or.inr ⟨rfl, h2⟩, h1.1, h1.2.1, h1.2.2⟩)
  · exact Or.inr (Or.inr ⟨Or.inl ⟨rfl, h2⟩, h1.1, h1.2.1, h1.2.2⟩)
  · exact Or.inr (Or.inl ⟨rfl, h3.2.1, h3.1, h3.2.2⟩)
  · exact Or.inl rfl

theorem obsLoop_cons_early (pr : Rect) (px HB : ℚ) (st : LoopSt) (o : Obstacle)
    (rest : List Obstacle) (h : (obsStep pr px HB st o).2.2 = true) :
    obsLoop pr px HB st (o :: rest) =
      ((obsStep pr px HB st o).1 :: rest, (obsStep pr px HB st o).2.1, true) := by
  unfold obsLoop
  rw [if_pos h]

theorem obsLoop_cons_next (pr : Rect) (px HB : ℚ) (st : LoopSt) (o : Obstacle)
    (rest : List Obstacle) (h : (obsStep pr px HB st o).2.2 = false) :
    obsLoop pr px HB st (o :: rest) =
      ((obsStep pr px HB st o).1 :: (obsLoop pr px HB (obsStep pr px HB st o).2.1 rest).1,
        (obsLoop pr px HB (obsStep pr px HB st o).2.1 rest).2.1,
        (obsLoop pr px HB (obsStep pr px HB st o).2.1 rest).2.2) := by
  conv_lhs => rw [obsLoop]
  dsimp only
  rw [if_neg (by simp [h])]

theorem obsLoop_cooldown_pos (pr : Rect) (px HB : ℚ) :
    ∀ (obs : List Obstacle) (st : LoopSt), 0 < st.hitCooldown →
      (obsLoop pr px HB st obs).2.1.hearts = st.hearts ∧
      (obsLoop pr px HB st obs).2.1.hitCooldown = st.hitCooldown ∧
      (obsLoop pr px HB st obs).2.1.state = st.state ∧
      (obsLoop pr px HB st obs).2.2 = false ∧
      ((obsLoop pr px HB st obs).1).map (fun o => o.hit) = obs.map (fun o => o.hit) := by
  intro obs
  induction obs with
  | nil => exact fun st h => ⟨rfl, rfl, rfl, rfl, rfl⟩
  | cons o rest ih =>
    intro st h
    rcases obsStep_cases pr px HB st o with hc | ⟨hc, _⟩ | ⟨_, _, hcd, _⟩
    · have hf : (obsStep pr px HB st o).2.2 = false := by rw [hc]
      rw [obsLoop_cons_next pr px HB st o rest hf, hc]
      obtain ⟨e1, e2, e3, e4, e5⟩ := ih st h
      exact ⟨e1, e2, e3, e4, by simp only [List.map_cons, e5]⟩
    · have hf : (obsStep pr px HB st o).2.2 = false := by rw [hc]
      rw [obsLoop_cons_next pr px HB st o rest hf, hc]
      obtain ⟨e1, e2, e3, e4, e5⟩ := ih { st with score := st.score + 1 } h
      exact ⟨e1, e2, e3, e4, by simp only [List.map_cons, e5]⟩
    · exact absurd h (by simp [not_lt.mpr hcd])

theorem obsLoop_hearts_bounds (pr : Rect) (px HB : ℚ) :
    ∀ (obs : List Obstacle) (st : LoopSt), 0 ≤ st.hearts → st.hearts ≤ 6 →
      0 ≤ (obsLoop pr px HB st obs).2.1.hearts ∧
        (obsLoop pr px HB st obs).2.1.hearts ≤ 6 := by
  intro obs
  induction obs with
  | nil => exact fun st h0 h6 => ⟨h0, h6⟩
  | cons o rest ih =>
    intro st h0 h6
    rcases obsStep_cases pr px HB st o with hc | ⟨hc, _⟩ | ⟨hfc, _⟩
    · have hf : (obsStep pr px HB st o).2.2 = false := by rw [hc]
      rw [obsLoop_cons_next pr px HB st o rest hf, hc]
      exact ih st h0 h6
    · have hf : (obsStep pr px HB st o).2.2 = false := by rw [hc]
      rw [obsLoop_cons_next pr px HB st o rest hf, hc]
      exact ih { st with score := st.score + 1 } h0 h6
    · rcases hfc with ⟨hc, _⟩ | ⟨hc, _⟩
      · have hf : (obsStep pr px HB st o).2.2 = false := by rw [hc]
        rw [obsLoop_cons_next pr px HB st o rest hf, hc]
        exact ih _ (iclamp_nonneg _) (iclamp_le_six _)
      · have hf : (obsStep pr px HB st o).2.2 = true := by rw [hc]
        rw [obsLoop_cons_early pr px HB st o rest hf, hc]
        exact ⟨iclamp_nonneg _, iclamp_le_six _⟩

theorem obsLoop_hearts_lower (pr : Rect) (px HB : ℚ) (hHB : 0 < HB) :
    ∀ (obs : List Obstacle) (st : LoopSt), st.hearts ≤ 6 →
      st.hearts - 1 ≤ (obsLoop pr px HB st obs).2.1.hearts := by
  intro obs
  induction obs with
  | nil =>
    intro st h6
    show st.hearts - 1 ≤ st.hearts
    omega
  | cons o rest ih =>
    intro st h6
    rcases obsStep_cases pr px HB st o with hc | ⟨hc, _⟩ | ⟨hfc, _⟩
    · have hf : (obsStep pr px HB st o).2.2 = false := by rw [hc]
      rw [obsLoop_cons_next pr px HB st o rest hf, hc]
      exact ih st h6
    · have hf : (obsStep pr px HB st o).2.2 = false := by rw [hc]
      rw [obsLoop_cons_next pr px HB st o rest hf, hc]
      exact ih { st with score := st.score + 1 } h6
    · rcases hfc with ⟨hc, _⟩ | ⟨hc, _⟩
      · have hf : (obsStep pr px HB st o).2.2 = false := by rw [hc]
        rw [obsLoop_cons_next pr px HB st o rest hf, hc]
        have hrest := (obsLoop_cooldown_pos pr px HB rest
          { st with hearts := iclamp (st.hearts - 1) 0 6, hitCooldown := HB } hHB).1
        rw [hrest]
        exact iclamp_lower _ (by omega)
      · have hf : (obsStep pr px HB st o).2.2 = true := by rw [hc]
        rw [obsLoop_cons_early pr px HB st o rest hf, hc]
        exact iclamp_lower _ (by omega)

theorem obsLoop_pos_hearts (pr : Rect) (px HB : ℚ) :
    ∀ (obs : List Obstacle) (st : LoopSt), 0 < st.hearts →
      ((obsLoop pr px HB st obs).2.2 = false →
        0 < (obsLoop pr px HB st obs).2.1.hearts ∧
          (obsLoop pr px HB st obs).2.1.state = st.state) ∧
      ((obsLoop pr px HB st obs).2.2 = true →
        (obsLoop pr px HB st obs).2.1.hearts = 0 ∧
          (obsLoop pr px HB st obs).2.1.state = .GAMEOVER) := by
  intro obs
  induction obs with
  | nil => exact fun st h => ⟨fun _ => ⟨h, rfl⟩, fun hb => Bool.noConfusion hb⟩
  | cons o rest ih =>
    intro st h
    rcases obsStep_cases pr px HB st o with hc | ⟨hc, _⟩ | ⟨hfc, _⟩
    · have hf : (obsStep pr px HB st o).2.2 = false := by rw [hc]
      rw [obsLoop_cons_next pr px HB st o rest hf, hc]
      exact ih st h
    · have hf : (obsStep pr px HB st o).2.2 = false := by rw [hc]
      rw [obsLoop_cons_next pr px HB st o rest hf, hc]
      exact ih { st with score := st.score + 1 } h
    · rcases hfc with ⟨hc, hpos⟩ | ⟨hc, hneg⟩
      · have hf : (obsStep pr px HB st o).2.2 = false := by rw [hc]
        rw [obsLoop_cons_next pr px HB st o rest hf, hc]
        exact ih _ (lt_of_not_le hpos)
      · have hf : (obsStep pr px HB st o).2.2 = true := by rw [hc]
        rw [obsLoop_cons_early pr px HB st o rest hf, hc]
        exact ⟨fun hb => Bool.noConfusion hb, fun _ => ⟨le_antisymm hneg (iclamp_nonneg _), rfl⟩⟩

theorem obsLoop_cooldown (pr : Rect) (px HB : ℚ) :
    ∀ (obs : List Obstacle) (st : LoopSt),
      (obsLoop pr px HB st obs).2.1.hitCooldown = st.hitCooldown ∨
        (obsLoop pr px HB st obs).2.1.hitCooldown = HB := by
  intro obs
  induction obs with
  | nil => exact fun st => Or.inl rfl
  | cons o rest ih =>
    intro st
    rcases obsStep_cases pr px HB st o with hc | ⟨hc, _⟩ | ⟨hfc, _⟩
    · have hf : (obsStep pr px HB st o).2.2 = false := by rw [hc]
      rw [obsLoop_cons_next pr px HB st o rest hf, hc]
      exact ih st
    · have hf : (obsStep pr px HB st o).2.2 = false := by rw [hc]
      rw [obsLoop_cons_next pr px HB st o rest hf, hc]
      exact ih { st with score := st.score + 1 }
    · rcases hfc with ⟨hc, _⟩ | ⟨hc, _⟩
      · have hf : (obsStep pr px HB st o).2.2 = false := by rw [hc]
        rw [obsLoop_cons_next pr px HB st o rest hf, hc]
        rcases ih { st with hearts := iclamp (st.hearts - 1) 0 6, hitCooldown := HB } with
          hcd | hcd
        · exact Or.inr (by rw [hcd])
        · exact Or.inr (by rw [hcd])
      · have hf : (obsStep pr px HB st o).2.2 = true := by rw [hc]
        rw [obsLoop_cons_early pr px HB st o rest hf, hc]
        exact Or.inr rfl

theorem obsStep_ObInv (pr : Rect) (px HB : ℚ) (st : LoopSt) (o : Obstacle)
    (hpr : px ≤ pr.x) (h : ObInv px o) :
    ObInv px (obsStep pr px HB st o).1 := by
  obtain ⟨hw, hns, hsc⟩ := h
  rcases obsStep_cases pr px HB st o with hc | ⟨hc, hh, hs, hp⟩ | ⟨hfc, hov, _, hh⟩
  · rw [hc]; exact ⟨hw, hns, hsc⟩
  · rw [hc]
    exact ⟨hw, fun hb => by simp [hh] at hb, fun _ => hp⟩
  · have hso : o.scored = false := by
      by_cases hb : o.scored = true
      · exfalso
        have hlt := hsc hb
        obtain ⟨ho1, _, _, _⟩ := hov
        unfold shrink at ho1
        dsimp only at ho1
        linarith [ho1, hlt, hpr, hw]
      · simpa using hb
    rcases hfc with ⟨hc, _⟩ | ⟨hc, _⟩
    · rw [hc]
      exact ⟨hw, fun hb => by simp [hso] at hb, fun hb => by simp [hso] at hb⟩
    · rw [hc]
      exact ⟨hw, fun hb => by simp [hso] at hb, fun hb => by simp [hso] at hb⟩

theorem obsLoop_ObInv (pr : Rect) (px HB : ℚ) (hpr : px ≤ pr.x) :
    ∀ (obs : List Obstacle) (st : LoopSt), (∀ o ∈ obs, ObInv px o) →
      ∀ o ∈ (obsLoop pr px HB st obs).1, ObInv px o := by
  intro obs
  induction obs with
  | nil => intro st _ o ho; simp [obsLoop] at ho
  | cons o rest ih =>
    intro st hinv o' ho'
    by_cases hf : (obsStep pr px HB st o).2.2 = true
    · rw [obsLoop_cons_early pr px HB st o rest hf] at ho'
      rcases List.mem_cons.mp ho' with he | hr
      · subst he
        exact obsStep_ObInv pr px HB st o hpr (hinv o (List.mem_cons_self o rest))
      · exact hinv o' (List.mem_cons_of_mem o hr)
    · rw [obsLoop_cons_next pr px HB st o rest (Bool.eq_false_iff.mpr hf)] at ho'
      rcases List.mem_cons.mp ho' with he | hr
      · subst he
        exact obsStep_ObInv pr px HB st o hpr (hinv o (List.mem_cons_self o rest))
      · exact ih (obsStep pr px HB st o).2.1
          (fun x hx => hinv x (List.mem_cons_of_mem o hx)) o' hr

theorem pickupLoop_cons_taken (pr : Rect) (hearts : ℤ) (hr : HeartPickup)
    (rest : List HeartPickup) (h : hr.taken = true) :
    pickupLoop pr hearts (hr :: rest) =
      (hr :: (pickupLoop pr hearts rest).1, (pickupLoop pr hearts rest).2) := by
  conv_lhs => rw [pickupLoop]
  dsimp only
  rw [if_pos h]

theorem pickupLoop_cons_hit (pr : Rect) (hearts : ℤ) (hr : HeartPickup)
    (rest : List HeartPickup) (h : hr.taken = false)
    (hov : rectOverlap pr (shrink hr.x hr.y hr.w hr.h)) :
    pickupLoop pr hearts (hr :: rest) =
      ({ hr with taken := true } ::
        (pickupLoop pr (if hearts < 6 then hearts + 1 else hearts) rest).1,
        (pickupLoop pr (if hearts < 6 then hearts + 1 else hearts) rest).2) := by
  conv_lhs => rw [pickupLoop]
  dsimp only
  rw [if_neg (by simp [h]), if_pos hov]

theorem pickupLoop_cons_miss (pr : Rect) (hearts : ℤ) (hr : HeartPickup)
    (rest : List HeartPickup) (h : hr.taken = false)
    (hov : ¬ rectOverlap pr (shrink hr.x hr.y hr.w hr.h)) :
    pickupLoop pr hearts (hr :: rest) =
      (hr :: (pickupLoop pr hearts rest).1, (pickupLoop pr hearts rest).2) := by
  conv_lhs => rw [pickupLoop]
  dsimp only
  rw [if_neg (by simp [h]), if_neg hov]

theorem pickupLoop_hearts_mono (pr : Rect) :
    ∀ (l : List HeartPickup) (hearts : ℤ), hearts ≤ (pickupLoop pr hearts l).2 := by
  intro l
  induction l with
  | nil => exact fun hearts => le_refl hearts
  | cons hr rest ih =>
    intro hearts
    by_cases ht : hr.taken = true
    · rw [pickupLoop_cons_taken pr hearts hr rest ht]
      exact ih hearts
    · have ht' : hr.taken = false := Bool.eq_false_iff.mpr ht
      by_cases hov : rectOverlap pr (shrink hr.x hr.y hr.w hr.h)
      · rw [pickupLoop_cons_hit pr hearts hr rest ht' hov]
        refine le_trans ?_ (ih _)
        by_cases h6 : hearts < 6
        · rw [if_pos h6]; omega
        · rw [if_neg h6]
      · rw [pickupLoop_cons_miss pr hearts hr rest ht' hov]
        exact ih hearts

theorem pickupLoop_hearts_le (pr : Rect) :
    ∀ (l : List HeartPickup) (hearts : ℤ), hearts ≤ 6 → (pickupLoop pr hearts l).2 ≤ 6 := by
  intro l
  induction l with
  | nil => exact fun hearts h => h
  | cons hr rest ih =>
    intro hearts h
    by_cases ht : hr.taken = true
    · rw [pickupLoop_cons_taken pr hearts hr rest ht]
      exact ih hearts h
    · have ht' : hr.taken = false := Bool.eq_false_iff.mpr ht
      by_cases hov : rectOverlap pr (shrink hr.x hr.y hr.w hr.h)
      · rw [pickupLoop_cons_hit pr hearts hr rest ht' hov]
        refine ih _ ?_
        by_cases h6 : hearts < 6
        · rw [if_pos h6]; omega
        · rw [if_neg h6]; exact h
      · rw [pickupLoop_cons_miss pr hearts hr rest ht' hov]
        exact ih hearts h

theorem pickupLoop_at_cap (pr : Rect) (l : List HeartPickup) :
    (pickupLoop pr 6 l).2 = 6 :=
  le_antisymm (pickupLoop_hearts_le pr l 6 le_rfl) (pickupLoop_hearts_mono pr l 6)

theorem spawnHeart_spec (env : Env) (rnd : Rand) (dt : ℚ) (g : Game) :
    (spawnHeart env rnd dt g).hearts = g.hearts ∧
    (spawnHeart env rnd dt g).score = g.score ∧
    (spawnHeart env rnd dt g).state = g.state ∧
    (spawnHeart env rnd dt g).player = g.player ∧
    (spawnHeart env rnd dt g).obstacles = g.obstacles ∧
    (spawnHeart env rnd dt g).u = g.u ∧
    (spawnHeart env rnd dt g).HIT_BUFFER = g.HIT_BUFFER ∧
    (spawnHeart env rnd dt g).speed = g.speed := by
  unfold spawnHeart
  dsimp only
  split_ifs <;> exact ⟨rfl, rfl, rfl, rfl, rfl, rfl, rfl, rfl⟩

theorem moveWorld_obstacles (dt : ℚ) (g : Game) :
    (moveWorld dt g).obstacles =
      g.obstacles.map (fun o => { o with x := o.x - g.speed * dt }) := rfl

theorem moveWorld_pickups (dt : ℚ) (g : Game) :
    (moveWorld dt g).heartPickups =
      g.heartPickups.map (fun hr => { hr with x := hr.x - g.speed * dt }) := rfl

theorem preCollide_player (env : Env) (rnd : Rand) (dt : ℚ) (g : Game) :
    (preCollide env rnd dt g).player = stepPlayer g.G g.groundY dt g.player := by
  unfold preCollide moveWorld spawnHeart spawnObstacle physicsStage rampDifficulty
  dsimp only
  split_ifs <;> rfl

theorem preCollide_core (env : Env) (rnd : Rand) (dt : ℚ) (g : Game) :
    (preCollide env rnd dt g).hearts = g.hearts ∧
    (preCollide env rnd dt g).score = g.score ∧
    (preCollide env rnd dt g).state = g.state ∧
    (preCollide env rnd dt g).HIT_BUFFER = g.HIT_BUFFER ∧
    (preCollide env rnd dt g).u = g.u ∧
    (preCollide env rnd dt g).difficultySeconds = g.difficultySeconds + dt ∧
    (preCollide env rnd dt g).speed = 350 + (g.difficultySeconds + dt) * 4 := by
  unfold preCollide moveWorld spawnHeart spawnObstacle physicsStage rampDifficulty
  dsimp only
  split_ifs <;> exact ⟨rfl, rfl, rfl, rfl, rfl, rfl, rfl⟩

theorem preCollide_obstacles (env : Env) (rnd : Rand) (dt : ℚ) (g : Game) :
    (preCollide env rnd dt g).obstacles =
        g.obstacles.map
          (fun o => { o with x := o.x - (350 + (g.difficultySeconds + dt) * 4) * dt }) ∨
      ∃ ob, (preCollide env rnd dt g).obstacles =
          g.obstacles.map
            (fun o => { o with x := o.x - (350 + (g.difficultySeconds + dt) * 4) * dt })
            ++ [ob] ∧
        ob.hit = false ∧ ob.scored = false ∧ (0 ≤ g.u → 0 ≤ ob.w) := by
  have hs : (spawnHeart env rnd dt
      (spawnObstacle env rnd dt (physicsStage dt (rampDifficulty dt g)))).speed =
      350 + (g.difficultySeconds + dt) * 4 := by
    rw [(spawnHeart_spec env rnd dt _).2.2.2.2.2.2.2,
      (spawnObstacle_spec env rnd dt _).2.2.2.2.2.2.2.1]
    rfl
  have e1 : (preCollide env rnd dt g).obstacles =
      ((spawnObstacle env rnd dt (physicsStage dt (rampDifficulty dt g))).obstacles).map
        (fun o => { o with x := o.x - (350 + (g.difficultySeconds + dt) * 4) * dt }) := by
    show (moveWorld dt (spawnHeart env rnd dt
      (spawnObstacle env rnd dt (physicsStage dt (rampDifficulty dt g))))).obstacles = _
    rw [moveWorld_obstacles, (spawnHeart_spec env rnd dt _).2.2.2.2.1, hs]
  rcases (spawnObstacle_spec env rnd dt
      (physicsStage dt (rampDifficulty dt g))).2.2.2.2.2.2.2.2 with ho | ⟨ob, ho, hh, hsc, hw⟩
  · left
    rw [e1, ho]
    rfl
  · right
    refine ⟨{ ob with x := ob.x - (350 + (g.difficultySeconds + dt) * 4) * dt },
      ?_, hh, hsc, hw⟩
    rw [e1, ho, List.map_append]
    rfl

theorem resolveCollisions_fields (g : Game) :
    (resolveCollisions g).difficultySeconds = g.difficultySeconds ∧
    (resolveCollisions g).u = g.u ∧
    (resolveCollisions g).player.x = g.player.x ∧
    (resolveCollisions g).player.w = g.player.w ∧
    (resolveCollisions g).player.jumpsRemaining = g.player.jumpsRemaining ∧
    (resolveCollisions g).player.onGround = g.player.onGround ∧
    (resolveCollisions g).HIT_BUFFER = g.HIT_BUFFER := by
  unfold resolveCollisions
  dsimp only
  split_ifs <;> exact ⟨rfl, rfl, rfl, rfl, rfl, rfl, rfl⟩

theorem resolveCollisions_hearts_bounds (g : Game) (h0 : 0 ≤ g.hearts) (h6 : g.hearts ≤ 6) :
    0 ≤ (resolveCollisions g).hearts ∧ (resolveCollisions g).hearts ≤ 6 := by
  unfold resolveCollisions
  dsimp only
  have hb1 := obsLoop_hearts_bounds (shrink g.player.x g.player.y g.player.w g.player.h)
    g.player.x g.HIT_BUFFER g.obstacles
    { hitCooldown := g.player.hitCooldown, hearts := g.hearts, score := g.score, state := g.state }
    h0 h6
  split_ifs with hb
  · exact hb1
  · exact ⟨le_trans hb1.1 (pickupLoop_hearts_mono _ _ _),
      pickupLoop_hearts_le _ _ _ hb1.2⟩

theorem resolveCollisions_zero (g : Game) (h : 0 < g.hearts) :
    (resolveCollisions g).hearts = 0 → (resolveCollisions g).state = .GAMEOVER := by
  unfold resolveCollisions
  dsimp only
  have hp := obsLoop_pos_hearts (shrink g.player.x g.player.y g.player.w g.player.h)
    g.player.x g.HIT_BUFFER g.obstacles
    { hitCooldown := g.player.hitCooldown, hearts := g.hearts, score := g.score, state := g.state }
    h
  split_ifs with hb
  · intro h0
    exact (hp.2 hb).2
  · intro h0
    dsimp only at h0
    exfalso
    have hpos := (hp.1 (Bool.eq_false_iff.mpr hb)).1
    have hmono := pickupLoop_hearts_mono (shrink g.player.x g.player.y g.player.w g.player.h)
      g.heartPickups
      (obsLoop (shrink g.player.x g.player.y g.player.w g.player.h) g.player.x g.HIT_BUFFER
        { hitCooldown := g.player.hitCooldown, hearts := g.hearts, score := g.score,
          state := g.state } g.obstacles).2.1.hearts
    omega

theorem resolveCollisions_hearts_lower (g : Game) (hHB : 0 < g.HIT_BUFFER)
    (h6 : g.hearts ≤ 6) :
    g.hearts - 1 ≤ (resolveCollisions g).hearts := by
  unfold resolveCollisions
  dsimp only
  have hlo := obsLoop_hearts_lower (shrink g.player.x g.player.y g.player.w g.player.h)
    g.player.x g.HIT_BUFFER hHB g.obstacles
    { hitCooldown := g.player.hitCooldown, hearts := g.hearts, score := g.score, state := g.state }
    h6
  split_ifs with hb
  · exact hlo
  · exact le_trans hlo (pickupLoop_hearts_mono _ _ _)

theorem resolveCollisions_cooldown (g : Game) :
    (resolveCollisions g).player.hitCooldown = g.player.hitCooldown ∨
      (resolveCollisions g).player.hitCooldown = g.HIT_BUFFER := by
  unfold resolveCollisions
  dsimp only
  have hcd := obsLoop_cooldown (shrink g.player.x g.player.y g.player.w g.player.h)
    g.player.x g.HIT_BUFFER g.obstacles
    { hitCooldown := g.player.hitCooldown, hearts := g.hearts, score := g.score, state := g.state }
  split_ifs with hb
  · exact hcd
  · exact hcd

theorem resolveCollisions_ObInv (g : Game) (hpw : 0 ≤ g.player.w)
    (hinv : ∀ o ∈ g.obstacles, ObInv g.player.x o) :
    ∀ o ∈ (resolveCollisions g).obstacles, ObInv g.player.x o := by
  have hpr : g.player.x ≤ (shrink g.player.x g.player.y g.player.w g.player.h).x := by
    unfold shrink
    dsimp only
    have h1 : 0 ≤ g.player.w * 0.1 * 0.5 :=
      mul_nonneg (mul_nonneg hpw (by norm_num)) (by norm_num)
    linarith
  have hloop := obsLoop_ObInv (shrink g.player.x g.player.y g.player.w g.player.h)
    g.player.x g.HIT_BUFFER hpr g.obstacles
    { hitCooldown := g.player.hitCooldown, hearts := g.hearts, score := g.score, state := g.state }
    hinv
  unfold resolveCollisions
  dsimp only
  split_ifs with hb
  · exact hloop
  · intro o ho
    exact hloop o (List.mem_filter.mp ho).1

/-! Claim theorems. -/

/-- C10: an update step taken in a state other than Playing mutates only
the world clock `t`, which advances by dt in Title and GameOver and is
frozen while Paused; player, obstacles, pickups, timers, speed,
background offset, score and hearts are all unchanged. -/
theorem C10_nonplaying_step (env : Env) (rnd : Rand) (dt : ℚ) (g : Game) :
    ((g.state = .TITLE ∨ g.state = .GAMEOVER) →
      update env rnd dt g = { g with t := g.t + dt }) ∧
    (g.state = .PAUSED → update env rnd dt g = g) := by
  constructor
  · intro h
    have hnp : g.state ≠ .PLAYING := by rcases h with h | h <;> simp [h]
    rw [update_not_playing env rnd dt g hnp]
    rcases h with h | h <;> simp [h]
  · intro h
    rw [update_not_playing env rnd dt g (by simp [h])]
    simp [h]

theorem C10_witness :
    update envD rndD (1/60) gTitle = { gTitle with t := gTitle.t + 1/60 } ∧
    update envD rndD (1/60) gPaused = gPaused :=
  ⟨(C10_nonplaying_step envD rndD (1/60) gTitle).1 (Or.inl rfl),
    (C10_nonplaying_step envD rndD (1/60) gPaused).2 rfl⟩

/-- C1: a Playing session starts with 3 hearts; every step keeps hearts
inside [0,6]; on a step where hearts reach exactly 0 the state becomes
GameOver on that same step; and a GameOver step mutates nothing but the
clock, so hearts and score stay frozen until the next startGame. -/
theorem C1_hearts_invariant (env : Env) (rnd : Rand) (dt : ℚ) (g : Game) :
    ((startGame env g).hearts = 3 ∧ (startGame env g).state = .PLAYING) ∧
    (0 ≤ g.hearts → g.hearts ≤ 6 →
      0 ≤ (update env rnd dt g).hearts ∧ (update env rnd dt g).hearts ≤ 6) ∧
    (g.state = .PLAYING → 0 < g.hearts → (update env rnd dt g).hearts = 0 →
      (update env rnd dt g).state = .GAMEOVER) ∧
    (g.state = .GAMEOVER → update env rnd dt g = { g with t := g.t + dt }) := by
  refine ⟨⟨rfl, rfl⟩, ?_, ?_, ?_⟩
  · intro h0 h6
    by_cases hs : g.state = .PLAYING
    · rw [update_playing env rnd dt g hs]
      unfold updatePlaying
      have hpre := (preCollide_core env rnd dt
        { g with t := g.t + dt, bgOffset := bgAdvance env dt g }).1
      exact resolveCollisions_hearts_bounds _ (by rw [hpre]; exact h0) (by rw [hpre]; exact h6)
    · rw [update_not_playing env rnd dt g hs]
      split_ifs <;> exact ⟨h0, h6⟩
  · intro hs hpos h0
    rw [update_playing env rnd dt g hs] at h0 ⊢
    unfold updatePlaying at h0 ⊢
    refine resolveCollisions_zero _ ?_ h0
    rw [(preCollide_core env rnd dt _).1]
    exact hpos
  · intro hs
    rw [update_not_playing env rnd dt g (by simp [hs])]
    simp [hs]

theorem C1_witness :
    0 < gFatal.hearts ∧ (update envD rndD (1/60) gFatal).hearts = 0 ∧
      (update envD rndD (1/60) gFatal).state = .GAMEOVER := by
  refine ⟨by decide, by decide, ?_⟩
  exact (C1_hearts_invariant envD rndD (1/60) gFatal).2.2.1 rfl (by decide)
    (by decide)

/-- C5: doJump is honored exactly when Playing with jumpsRemaining > 0,
setting vy = JUMP_V, clearing onGround and decrementing jumpsRemaining;
and a step changes jumpsRemaining only by replenishing it to 2 on the
false-to-true onGround transition of the ground clamp. -/
theorem C5_jump_rules (env : Env) (rnd : Rand) (dt : ℚ) (g : Game) :
    (g.state = .PLAYING → 0 < g.player.jumpsRemaining →
      doJump g =
        { g with player :=
            { g.player with
              vy := g.JUMP_V
              onGround := false
              jumpsRemaining := g.player.jumpsRemaining - 1 } }) ∧
    (g.state = .PLAYING → g.player.jumpsRemaining ≤ 0 → doJump g = g) ∧
    (g.state ≠ .PLAYING → doJump g = g) ∧
    ((update env rnd dt g).player.jumpsRemaining ≠ g.player.jumpsRemaining →
      (update env rnd dt g).player.jumpsRemaining = 2 ∧ g.player.onGround = false ∧
        (update env rnd dt g).player.onGround = true) := by
  refine ⟨?_, ?_, ?_, ?_⟩
  · intro hs hj
    unfold doJump
    rw [if_neg (by simp [hs]), if_pos hj]
  · intro hs hj
    unfold doJump
    rw [if_neg (by simp [hs]), if_neg (by omega)]
  · intro hs
    unfold doJump
    rw [if_pos hs]
  · intro hne
    by_cases hs : g.state = .PLAYING
    · rw [update_playing env rnd dt g hs] at hne ⊢
      unfold updatePlaying at hne ⊢
      have hj := (resolveCollisions_fields (preCollide env rnd dt
        { g with t := g.t + dt, bgOffset := bgAdvance env dt g })).2.2.2.2.1
      have hog := (resolveCollisions_fields (preCollide env rnd dt
        { g with t := g.t + dt, bgOffset := bgAdvance env dt g })).2.2.2.2.2.1
      rw [hj, preCollide_player] at hne ⊢
      rw [hog, preCollide_player]
      rcases stepPlayer_jumps ({ g with t := g.t + dt, bgOffset := bgAdvance env dt g } : Game).G
        ({ g with t := g.t + dt, bgOffset := bgAdvance env dt g } : Game).groundY dt
        ({ g with t := g.t + dt, bgOffset := bgAdvance env dt g } : Game).player with he | ⟨h2, h3, h4⟩
      · exact absurd he hne
      · exact ⟨h2, h3, h4⟩
    · rw [update_not_playing env rnd dt g hs] at hne
      split_ifs at hne <;> exact absurd rfl hne

theorem C5_witness :
    doJump baseG =
      { baseG with player :=
          { baseG.player with
            vy := baseG.JUMP_V
            onGround := false
            jumpsRemaining := baseG.player.jumpsRemaining - 1 } } ∧
    ((update envD rndD (1/60) gLand).player.jumpsRemaining = 2 ∧
      gLand.player.onGround = false ∧
      (update envD rndD (1/60) gLand).player.onGround = true) :=
  ⟨(C5_jump_rules envD rndD (1/60) baseG).1 rfl (by decide),
    (C5_jump_rules envD rndD (1/60) gLand).2.2.2 (by decide)⟩

/-- C9: within one Playing step hearts decrease by at most 1; the first
registered hit arms the cooldown to HIT_BUFFER immediately, and while
the cooldown is positive the rest of the obstacle loop cannot change
hearts. -/
theorem C9_at_most_one_hit (env : Env) (rnd : Rand) (dt : ℚ) (g : Game)
    (pr : Rect) (px : ℚ) (st : LoopSt) (o : Obstacle) (obs : List Obstacle) :
    (g.state = .PLAYING → 0 < g.HIT_BUFFER → g.hearts ≤ 6 →
      g.hearts - 1 ≤ (update env rnd dt g).hearts) ∧
    (rectOverlap pr (shrink o.x o.y o.w o.h) → st.hitCooldown ≤ 0 → o.hit = false →
      (obsStep pr px g.HIT_BUFFER st o).2.1.hitCooldown = g.HIT_BUFFER) ∧
    (0 < st.hitCooldown →
      (obsLoop pr px g.HIT_BUFFER st obs).2.1.hearts = st.hearts) := by
  refine ⟨?_, ?_, ?_⟩
  · intro hs hHB h6
    rw [update_playing env rnd dt g hs]
    unfold updatePlaying
    have hpre := (preCollide_core env rnd dt
      { g with t := g.t + dt, bgOffset := bgAdvance env dt g })
    have h1 := resolveCollisions_hearts_lower
      (preCollide env rnd dt { g with t := g.t + dt, bgOffset := bgAdvance env dt g })
      (by rw [hpre.2.2.2.1]; exact hHB) (by rw [hpre.1]; exact h6)
    rw [hpre.1] at h1
    exact h1
  · intro hov hcd hh
    unfold obsStep
    dsimp only
    rw [if_pos ⟨hov, hcd, hh⟩]
    split_ifs <;> rfl
  · intro hcd
    exact (obsLoop_cooldown_pos pr px g.HIT_BUFFER obs st hcd).1

theorem C9_witness :
    (update envD rndD (1/60) gTwo).hearts = 2 ∧
    gTwo.hearts - 1 ≤ (update envD rndD (1/60) gTwo).hearts :=
  ⟨by decide,
    (C9_at_most_one_hit envD rndD (1/60) gTwo prW 100 stW obHit []).1 rfl
      (by decide) (by decide)⟩

/-- C4: the obstacle flags hit and scored are mutually exclusive over an
obstacle's whole lifetime: the invariant (never both set, and a scored
obstacle lies wholly left of the player) is established by startGame
and preserved by every update step. -/
theorem C4_hit_scored_exclusive (env : Env) (rnd : Rand) (dt : ℚ) (g : Game) :
    (0 ≤ dt → GameInv g → GameInv (update env rnd dt g)) ∧
    (0 ≤ env.h → 0 ≤ g.u → GameInv (startGame env g)) := by
  constructor
  · rintro hdt ⟨hds, hu, hpw, hobs⟩
    by_cases hs : g.state = .PLAYING
    · rw [update_playing env rnd dt g hs]
      unfold updatePlaying
      have hcore := preCollide_core env rnd dt
        { g with t := g.t + dt, bgOffset := bgAdvance env dt g }
      have hfld := resolveCollisions_fields (preCollide env rnd dt
        { g with t := g.t + dt, bgOffset := bgAdvance env dt g })
      have hXplayer := preCollide_player env rnd dt
        { g with t := g.t + dt, bgOffset := bgAdvance env dt g }
      have hXx : (preCollide env rnd dt
          { g with t := g.t + dt, bgOffset := bgAdvance env dt g }).player.x = g.player.x := by
        rw [hXplayer, (stepPlayer_geom _ _ _ _).1]
      have hXw : (preCollide env rnd dt
          { g with t := g.t + dt, bgOffset := bgAdvance env dt g }).player.w = g.player.w := by
        rw [hXplayer, (stepPlayer_geom _ _ _ _).2.1]
      have hvx : 0 ≤ (350 + (g.difficultySeconds + dt) * 4) * dt :=
        mul_nonneg (by linarith) hdt
      have hXobs : ∀ o ∈ (preCollide env rnd dt
          { g with t := g.t + dt, bgOffset := bgAdvance env dt g }).obstacles,
          ObInv g.player.x o := by
        rcases preCollide_obstacles env rnd dt
            { g with t := g.t + dt, bgOffset := bgAdvance env dt g } with
          he | ⟨ob, he, hh, hsc, hw⟩
        · rw [he]
          intro o ho
          obtain ⟨o0, ho0, rfl⟩ := List.mem_map.mp ho
          obtain ⟨hw0, hns0, hs0⟩ := hobs o0 ho0
          refine ⟨hw0, hns0, fun hscored => ?_⟩
          have hlt := hs0 hscored
          dsimp only
          linarith [hvx]
        · rw [he]
          intro o ho
          rcases List.mem_append.mp ho with hmem | hmem
          · obtain ⟨o0, ho0, rfl⟩ := List.mem_map.mp hmem
            obtain ⟨hw0, hns0, hs0⟩ := hobs o0 ho0
            refine ⟨hw0, hns0, fun hscored => ?_⟩
            have hlt := hs0 hscored
            dsimp only
            linarith [hvx]
          · have hob : o = ob := by simpa using hmem
            subst hob
            exact ⟨hw hu, fun hcon => by simp [hh] at hcon,
              fun hscored => by simp [hsc] at hscored⟩
      refine ⟨?_, ?_, ?_, ?_⟩
      · rw [hfld.1, hcore.2.2.2.2.2.1]
        show (0:ℚ) ≤ g.difficultySeconds + dt
        linarith
      · rw [hfld.2.1, hcore.2.2.2.2.1]
        exact hu
      · rw [hfld.2.2.2.1, hXw]
        exact hpw
      · have hresx : (resolveCollisions (preCollide env rnd dt
            { g with t := g.t + dt, bgOffset := bgAdvance env dt g })).player.x
            = g.player.x := by
          rw [hfld.2.2.1, hXx]
        have hres := resolveCollisions_ObInv (preCollide env rnd dt
            { g with t := g.t + dt, bgOffset := bgAdvance env dt g })
          (by rw [hXw]; exact hpw) (by rw [hXx]; exact hXobs)
        rw [hXx] at hres
        rw [hresx]
        exact hres
    · rw [update_not_playing env rnd dt g hs]
      split_ifs
      · exact ⟨hds, hu, hpw, hobs⟩
      · exact ⟨hds, hu, hpw, hobs⟩
  · intro hh hu
    refine ⟨le_refl 0, hu, ?_, ?_⟩
    · show (0:ℚ) ≤ 48 * (env.h / DESIGN_HEIGHT)
      have hq : (0:ℚ) ≤ env.h / DESIGN_HEIGHT :=
        div_nonneg hh (by norm_num [DESIGN_HEIGHT])
      linarith
    · intro o ho
      exact absurd ho (List.not_mem_nil o)

theorem C4_witness : GameInv (update envD rndD (1/60) gTwo) :=
  (C4_hit_scored_exclusive envD rndD (1/60) gTwo).1 (by norm_num)
    (by decide)

/-- C2 counterexample: with hearts at the cap of 6 and an untaken heart
pickup whose shrunk box overlaps the player's shrunk box at
collision-check time (the pickup has scrolled left by 5251/900 px during
the step), the pickup does NOT stay on-field: it is consumed (removed at
cleanup) while hearts stay 6. -/
theorem C2_counterexample :
    gCap.hearts = 6 ∧ gCap.heartPickups = [hpCap] ∧ hpCap.taken = false ∧
    rectOverlap (shrink 100 412 48 64) (shrink (100 - 5251/900) 420 30 28) ∧
    (update envD rndD (1/60) gCap).heartPickups = [] ∧
    (update envD rndD (1/60) gCap).hearts = 6 := by
  refine ⟨rfl, rfl, rfl, ?_, ?_, ?_⟩ <;> decide

/-- C2 (amended): at the heart cap of 6, an overlapping untaken pickup
IS consumed — its taken flag is set to true (so the cleanup filter drops
it) — while hearts stay at 6: the increment alone is skipped. -/
theorem C2_cap_pickup_consumed (pr : Rect) (hr : HeartPickup) (rest : List HeartPickup)
    (h1 : hr.taken = false) (h2 : rectOverlap pr (shrink hr.x hr.y hr.w hr.h)) :
    (pickupLoop pr 6 (hr :: rest)).2 = 6 ∧
    (pickupLoop pr 6 (hr :: rest)).1 =
      { hr with taken := true } :: (pickupLoop pr 6 rest).1 := by
  have h6 : ¬ (6:ℤ) < 6 := by omega
  rw [pickupLoop_cons_hit pr 6 hr rest h1 h2, if_neg h6]
  exact ⟨pickupLoop_at_cap pr rest, rfl⟩

theorem C2_witness :
    (pickupLoop prW 6 [hpCap]).2 = 6 ∧
    (pickupLoop prW 6 [hpCap]).1 = { hpCap with taken := true } :: (pickupLoop prW 6 []).1 :=
  C2_cap_pickup_consumed prW hpCap [] rfl (by decide)

/-- C3 counterexample: after one step the obstacle sits at x = 72149/900
with its trailing edge between the player's left and right edges (the
leading edge in the claim's sense has passed, the left edge has not);
the code awards no score and leaves scored = false. -/
theorem C3_counterexample :
    obPass.hit = false ∧ obPass.scored = false ∧ gPass.score = 0 ∧
    (update envD rndD (1/60) gPass).obstacles = [{ obPass with x := 72149/900 }] ∧
    gPass.player.x + gPass.player.w > 72149/900 + obPass.w ∧
    ¬ (gPass.player.x > 72149/900 + obPass.w) ∧
    (update envD rndD (1/60) gPass).score = 0 := by
  refine ⟨rfl, rfl, rfl, ?_, ?_, ?_, ?_⟩ <;> decide

/-- C3 (amended): the scoring comparison uses the player's LEFT edge:
on a step where an unhit unscored obstacle's trailing edge lies strictly
left of the player's x, the loop iteration marks it scored and adds
exactly 1 to the score (no hit can register there, since the obstacle
lies wholly left of the shrunk player box). -/
theorem C3_scoring_left_edge (pr : Rect) (px HB : ℚ) (st : LoopSt) (o : Obstacle)
    (hh : o.hit = false) (hsc : o.scored = false) (hpass : o.x + o.w < px)
    (hpr : px ≤ pr.x) (hw : 0 ≤ o.w) :
    obsStep pr px HB st o =
      ({ o with scored := true }, { st with score := st.score + 1 }, false) := by
  have hnov : ¬ (rectOverlap pr (shrink o.x o.y o.w o.h) ∧
      st.hitCooldown ≤ 0 ∧ o.hit = false) := by
    rintro ⟨hov, -, -⟩
    obtain ⟨h1, -, -, -⟩ := hov
    unfold shrink at h1
    dsimp only at h1
    linarith
  unfold obsStep
  rw [if_neg hnov, if_pos ⟨hsc, hh, hpass⟩]

theorem C3_witness :
    obsStep prW 100 (6/10) stW obDone =
      ({ obDone with scored := true }, { stW with score := stW.score + 1 }, false) :=
  C3_scoring_left_edge prW 100 (6/10) stW obDone rfl rfl
    (by decide) (by decide)
    (by decide)

/-- C6 counterexample: while Paused with a live cooldown of 1/2 s, an
update step leaves the cooldown at 1/2 instead of decaying it by dt. -/
theorem C6_counterexample :
    gPausedCd.state = .PAUSED ∧ gPausedCd.player.hitCooldown = 1/2 ∧
    (update envD rndD (1/60) gPausedCd).player.hitCooldown = 1/2 ∧
    (update envD rndD (1/60) gPausedCd).player.hitCooldown ≠
      max 0 (gPausedCd.player.hitCooldown - 1/60) := by
  refine ⟨rfl, rfl, ?_, ?_⟩ <;> decide

/-- C6 (amended): the hit-cooldown decays by dt (floored at 0) only on
Playing steps — a registering hit may re-arm it to HIT_BUFFER in the
same step — and is left untouched on Title, Paused and GameOver steps;
while it is positive the obstacle loop can register no hit. -/
theorem C6_cooldown_rules (env : Env) (rnd : Rand) (dt : ℚ) (g : Game)
    (pr : Rect) (px HB : ℚ) (st : LoopSt) (obs : List Obstacle) :
    (g.state ≠ .PLAYING →
      (update env rnd dt g).player.hitCooldown = g.player.hitCooldown) ∧
    (g.state = .PLAYING →
      (update env rnd dt g).player.hitCooldown = max 0 (g.player.hitCooldown - dt) ∨
      (update env rnd dt g).player.hitCooldown = g.HIT_BUFFER) ∧
    (0 < st.hitCooldown →
      (obsLoop pr px HB st obs).2.1.hearts = st.hearts ∧
      ((obsLoop pr px HB st obs).1).map (fun o => o.hit) = obs.map (fun o => o.hit) ∧
      (obsLoop pr px HB st obs).2.1.state = st.state) := by
  refine ⟨?_, ?_, ?_⟩
  · intro hs
    rw [update_not_playing env rnd dt g hs]
    split_ifs <;> rfl
  · intro hs
    rw [update_playing env rnd dt g hs]
    unfold updatePlaying
    rcases resolveCollisions_cooldown (preCollide env rnd dt
        { g with t := g.t + dt, bgOffset := bgAdvance env dt g }) with h | h
    · left
      rw [h, preCollide_player, stepPlayer_cooldown]
    · right
      rw [h, (preCollide_core env rnd dt _).2.2.2.1]
  · intro hcd
    obtain ⟨e1, -, e3, -, e5⟩ := obsLoop_cooldown_pos pr px HB obs st hcd
    exact ⟨e1, e5, e3⟩

theorem C6_witness :
    ((update envD rndD (1/60) baseG).player.hitCooldown =
        max 0 (baseG.player.hitCooldown - 1/60) ∨
      (update envD rndD (1/60) baseG).player.hitCooldown = baseG.HIT_BUFFER) ∧
    (update envD rndD (1/60) gTitle).player.hitCooldown = gTitle.player.hitCooldown :=
  ⟨(C6_cooldown_rules envD rndD (1/60) baseG prW 100 (6/10) stW []).2.1 rfl,
    (C6_cooldown_rules envD rndD (1/60) gTitle prW 100 (6/10) stW []).1 (by decide)⟩

/-- C7 counterexample: on a guard-fail spawn step (timer expired,
previous obstacle still within minGapPx of the right edge) the
last-obstacle-x tracker is left unchanged — it is neither reset nor
decremented by the world-scroll distance. -/
theorem C7_counterexample :
    gGuard.state = .PLAYING ∧
    gGuard.obsTimer + 1/60 ≥ gGuard.obsInterval ∧
    ¬ (gGuard.lastObstacleX < envD.w - gGuard.minGapPx) ∧
    (update envD rndD (1/60) gGuard).lastObstacleX = gGuard.lastObstacleX ∧
    (update envD rndD (1/60) gGuard).obsTimer = gGuard.obsInterval * 0.7 ∧
    (update envD rndD (1/60) gGuard).lastObstacleX ≠
      gGuard.lastObstacleX - (350 + (0 + 1/60) * 4) * (1/60) := by
  refine ⟨rfl, ?_, ?_, ?_, ?_, ?_⟩ <;> decide

/-- C7 (amended): when the spawn timer reaches the interval and the
spacing guard fails, nothing spawns, the timer rewinds to
interval * 0.7 and the tracker is unchanged; when the guard passes, the
tracker is set to the new obstacle's x; the tracker decrements by
speed * dt only on steps where the timer has not yet reached the
interval. -/
theorem C7_spawn_guard (env : Env) (rnd : Rand) (dt : ℚ) (g : Game) :
    (g.obsTimer + dt ≥ g.obsInterval → ¬ (g.lastObstacleX < env.w - g.minGapPx) →
      spawnObstacle env rnd dt g = { g with obsTimer := g.obsInterval * 0.7 }) ∧
    (g.obsTimer + dt ≥ g.obsInterval → g.lastObstacleX < env.w - g.minGapPx →
      ∃ ob, (spawnObstacle env rnd dt g).obstacles = g.obstacles ++ [ob] ∧
        ob.x = env.w + 40 * g.u ∧
        (spawnObstacle env rnd dt g).lastObstacleX = env.w + 40 * g.u ∧
        ob.hit = false ∧ ob.scored = false) ∧
    (g.obsTimer + dt < g.obsInterval →
      spawnObstacle env rnd dt g =
        { g with
          obsTimer := g.obsTimer + dt
          lastObstacleX := g.lastObstacleX - g.speed * dt }) := by
  refine ⟨?_, ?_, ?_⟩
  · intro h1 h2
    unfold spawnObstacle
    dsimp only
    rw [if_pos h1, if_neg h2]
  · intro h1 h2
    unfold spawnObstacle
    dsimp only
    rw [if_pos h1, if_pos h2]
    exact ⟨_, rfl, rfl, rfl, rfl, rfl⟩
  · intro h1
    unfold spawnObstacle
    dsimp only
    rw [if_neg (not_le.mpr h1)]

theorem C7_witness :
    spawnObstacle envD rndD (1/60) gGuard =
      { gGuard with obsTimer := gGuard.obsInterval * 0.7 } :=
  (C7_spawn_guard envD rndD (1/60) gGuard).1 (by decide)
    (by decide)

theorem drain_eq (env : Env) (rs : ℕ → Rand) :
    ∀ (n : ℕ) (i : ℕ) (g : Game) (accum : ℚ), 0 ≤ accum → ⌊accum * 60⌋₊ = n →
      drain env rs i g accum =
        (updatesFrom env rs i n g, accum - n * (1 / 60)) := by
  intro n
  induction n with
  | zero =>
    intro i g accum ha hn
    have hneg : ¬ (1:ℚ)/60 ≤ accum := by
      intro hle
      have h1 : (1:ℚ) ≤ accum * 60 := by linarith
      have h2 : 1 ≤ ⌊accum * 60⌋₊ := Nat.le_floor (by exact_mod_cast h1)
      omega
    rw [drain, dif_neg hneg]
    simp only [updatesFrom, Nat.cast_zero, zero_mul, sub_zero]
  | succ n ih =>
    intro i g accum ha hn
    have hge : (1:ℚ)/60 ≤ accum := by
      by_contra hlt
      push_neg at hlt
      have h1 : accum * 60 < 1 := by linarith
      have h2 : ⌊accum * 60⌋₊ = 0 := Nat.floor_eq_zero.mpr h1
      omega
    rw [drain, dif_pos hge]
    have ha2 : 0 ≤ accum - 1/60 := by linarith
    have hn2 : ⌊(accum - 1/60) * 60⌋₊ = n := by
      have he : (accum - 1/60) * 60 = accum * 60 - ((1:ℕ):ℚ) := by push_cast; ring
      rw [he, Nat.floor_sub_nat]
      omega
    rw [ih (i+1) (update env (rs i) (1/60) g) (accum - 1/60) ha2 hn2]
    simp only [Prod.mk.injEq]
    refine ⟨rfl, ?_⟩
    push_cast
    ring

/-- C8: each frame callback clamps the elapsed time to at most 50 ms,
adds it to the accumulator, then runs the fixed-step update zero or
more times always with dt exactly 1/60 until the remainder is below one
step, and finally draws exactly once. -/
theorem C8_fixed_timestep (env : Env) (rs : ℕ → Rand) (i : ℕ)
    (prev nowT accum : ℚ) (g : Game) (ha : 0 ≤ accum) (hp : prev ≤ nowT) :
    min (nowT - prev) 0.05 ≤ 0.05 ∧
    tick env rs i prev nowT accum g =
      (updatesFrom env rs i ⌊(accum + min (nowT - prev) 0.05) * 60⌋₊ g,
        (accum + min (nowT - prev) 0.05) -
          ⌊(accum + min (nowT - prev) 0.05) * 60⌋₊ * (1 / 60),
        1) ∧
    0 ≤ (accum + min (nowT - prev) 0.05) -
        ⌊(accum + min (nowT - prev) 0.05) * 60⌋₊ * (1 / 60) ∧
    (accum + min (nowT - prev) 0.05) -
        ⌊(accum + min (nowT - prev) 0.05) * 60⌋₊ * (1 / 60) < 1 / 60 := by
  have hdt : 0 ≤ min (nowT - prev) 0.05 := le_min (by linarith) (by norm_num)
  have ha2 : 0 ≤ accum + min (nowT - prev) 0.05 := by linarith
  refine ⟨min_le_right _ _, ?_, ?_, ?_⟩
  · unfold tick
    dsimp only
    rw [drain_eq env rs ⌊(accum + min (nowT - prev) 0.05) * 60⌋₊ i g
      (accum + min (nowT - prev) 0.05) ha2 rfl]
  · have hfl : (⌊(accum + min (nowT - prev) 0.05) * 60⌋₊ : ℚ) ≤
        (accum + min (nowT - prev) 0.05) * 60 :=
      Nat.floor_le (mul_nonneg ha2 (by norm_num))
    linarith
  · have hlt : (accum + min (nowT - prev) 0.05) * 60 <
        ⌊(accum + min (nowT - prev) 0.05) * 60⌋₊ + 1 :=
      Nat.lt_floor_add_one _
    linarith

theorem C8_witness :
    min ((1:ℚ)/10 - 0) 0.05 ≤ 0.05 ∧
    tick envD rsD 0 0 (1/10) 0 gTitle =
      (updatesFrom envD rsD 0 ⌊((0:ℚ) + min ((1:ℚ)/10 - 0) 0.05) * 60⌋₊ gTitle,
        ((0:ℚ) + min ((1:ℚ)/10 - 0) 0.05) -
          ⌊((0:ℚ) + min ((1:ℚ)/10 - 0) 0.05) * 60⌋₊ * (1 / 60),
        1) ∧
    0 ≤ ((0:ℚ) + min ((1:ℚ)/10 - 0) 0.05) -
        ⌊((0:ℚ) + min ((1:ℚ)/10 - 0) 0.05) * 60⌋₊ * (1 / 60) ∧
    ((0:ℚ) + min ((1:ℚ)/10 - 0) 0.05) -
        ⌊((0:ℚ) + min ((1:ℚ)/10 - 0) 0.05) * 60⌋₊ * (1 / 60) < 1 / 60 :=
  C8_fixed_timestep envD rsD 0 0 (1/10) 0 gTitle le_rfl (by norm_num)

end Glimmerwood
